import Mathlib

set_option maxRecDepth 100000

attribute [local semireducible] Rat.mul Rat.add Rat.sub Rat.inv Rat.ofScientific

/-!
Verification of the curve-shaping and coordinate-mapping engine of the
confidence-distribution widget (`src/distribution.js`, first/canonical module
version).  JavaScript numbers are modelled by exact rationals `ℚ`; the library
function `Math.exp` is treated as a function parameter `mathExp : ℚ → ℚ`
(the code never relies on particular values of `Math.exp` except `exp 0 = 1`
where noted); JavaScript `NaN` flowing out of the precision search is modelled
by `Option ℚ` with `none` for `NaN`; JavaScript arrays passed by reference are
modelled, where object identity matters, by references into an explicit store.
-/

/-- The hard-coded constant `Distribution.root2pi = 2.5066282746310002`
(the source stores this literal, not a computed square root). -/
def Distribution.root2pi : ℚ := 2.5066282746310002

/-- `utils.sum(arr)`: left-to-right accumulation `total += arr[i]`;
over `ℚ` the fold direction is irrelevant, so we use cons recursion. -/
def utils.sum : List ℚ → ℚ
  | [] => 0
  | a :: t => a + utils.sum t

/-- `utils.getMin` over a nonempty list (reduce with `Math.min`). -/
def utils.getMin (a : ℚ) : List ℚ → ℚ
  | [] => a
  | b :: t => utils.getMin (min a b) t

/-- `utils.getMax` over a nonempty list (reduce with `Math.max`). -/
def utils.getMax (a : ℚ) : List ℚ → ℚ
  | [] => a
  | b :: t => utils.getMax (max a b) t

/-- `Distribution.f(x, mu, sd)`: for each grid point the code computes
`z * Math.exp(-(Math.pow(x[i] - mu, 2) / w))` with `z = 1/(root2pi*sd)` and
`w = Math.pow(2*sd, 2)`.  Note `w = (2*sd)^2 = 4*sd^2`. -/
def Distribution.f (mathExp : ℚ → ℚ) (x : List ℚ) (mu sd : ℚ) : List ℚ :=
  let z := 1 / (Distribution.root2pi * sd)
  let w := (2 * sd) ^ 2
  x.map (fun xi => z * mathExp (-((xi - mu) ^ 2 / w)))

/-- The density formula as the specification words it (for comparison with
`Distribution.f`): `1/(√(2π)·sd) · exp(−(x−mean)²/(2·sd²))`, with the code's
stored constant standing for `√(2π)`. -/
def densitySpec (mathExp : ℚ → ℚ) (x : List ℚ) (mu sd : ℚ) : List ℚ :=
  x.map (fun xi => 1 / (Distribution.root2pi * sd) * mathExp (-((xi - mu) ^ 2 / (2 * sd ^ 2))))

/-- Signed tail-mass accumulator of `adjustForConstantAUC`:
`remainder += yValues[i]` when `xValues[i] < x`, `-= yValues[i]` when
`xValues[i] > x` (accumulation order is irrelevant over `ℚ`). -/
def Distribution.tailDiff (x : ℚ) : List (ℚ × ℚ) → ℚ
  | [] => 0
  | (xi, yi) :: rest =>
      (if xi < x then yi else if x < xi then -yi else 0) + Distribution.tailDiff x rest

/-- The `remainder = Math.abs(...)` computed by `adjustForConstantAUC`.
The code reads `yValues[i]` for `i < xValues.length`; pairing with `zip`
models the in-bounds regime (the theorems assume equal lengths, as every
caller in the source guarantees). -/
def Distribution.remainderOf (x : ℚ) (xs ys : List ℚ) : ℚ :=
  |Distribution.tailDiff x (xs.zip ys)|

/-- Value-level semantics of `Distribution.adjustForConstantAUC(x, xValues,
yValues)`: the contents of the array the call returns.  The in-place loop
`yValuesNew[i] += remainder * (yValues[i] / sum)` reads each index before
writing it (and `sum` is computed before the loop), so its effect equals this
map.  The guard is the code's `remainder/xValues.length > 0`, which in
JavaScript is false for an empty `xValues` (`NaN > 0`), matching `ℚ` where
division by zero yields `0`. -/
def Distribution.adjustForConstantAUC (x : ℚ) (xValues yValues : List ℚ) : List ℚ :=
  let remainder := Distribution.remainderOf x xValues yValues
  if 0 < remainder / (xValues.length : ℚ) then
    let s := utils.sum yValues
    yValues.map (fun y => y + remainder * (y / s))
  else yValues

/-- Heap for JavaScript arrays: a reference is an index into the store. -/
structure Store where
  heap : List (List ℚ)
deriving DecidableEq

/-- Dereference an array (out-of-range reads model as `[]`; the theorems use
in-bounds references). -/
def Store.read (s : Store) (r : ℕ) : List ℚ :=
  s.heap.getD r []

/-- Overwrite the array behind a reference. -/
def Store.write (s : Store) (r : ℕ) (v : List ℚ) : Store :=
  ⟨s.heap.set r v⟩

/-- `Distribution.adjustForConstantAUC` as executed on the heap.
`let yValuesNew = yValues` makes `yValuesNew` an alias of the argument array,
so the `yValuesNew[i] += ...` loop mutates the caller's array; the function
then returns that same reference.  Result: the returned reference and the
post-call store. -/
def adjustForConstantAUCCall (x : ℚ) (xsRef ysRef : ℕ) (s : Store) : ℕ × Store :=
  let xs := s.read xsRef
  let ys := s.read ysRef
  if 0 < Distribution.remainderOf x xs ys / (xs.length : ℚ) then
    (ysRef,
      s.write ysRef
        (ys.map (fun y => y + Distribution.remainderOf x xs ys * (y / utils.sum ys))))
  else (ysRef, s)

/-- The constructor's grid loop:
`step = (xMax - xMin)/xPoints; for(i = 0; i <= xMax - xMin; i++) x[i] = xMin + step*i`,
then an optional reverse.  The loop bound is `xMax - xMin`, not `xPoints`:
the iteration count is `⌊xMax - xMin⌋ + 1` (zero when negative). -/
def Distribution.makeX (xMin xMax xPoints : ℚ) (reverseX : Bool) : List ℚ :=
  let step := (xMax - xMin) / xPoints
  let n : ℕ := (⌊xMax - xMin⌋ + 1).toNat
  let xs := (List.range n).map (fun i : ℕ => xMin + step * (i : ℚ))
  if reverseX then xs.reverse else xs

/-- Engine state and configuration, as the fields the verified methods read.
`mathExp` stands for the ambient `Math.exp`; `precisionPadding` is the value
of `style.precisionPadding` after the constructor's processing; `minPayout`
and `maxPayout` default to `-Infinity`/`Infinity`, modelled by `none`. -/
structure Distribution where
  mathExp : ℚ → ℚ
  x : List ℚ
  xMin : ℚ
  xMax : ℚ
  betOn : ℚ
  betIndex : ℕ
  scaleFactor : ℚ
  minPrecision : ℚ
  maxPrecision : ℚ
  minBet : ℚ
  maxBet : ℚ
  minPayout : Option ℚ
  maxPayout : Option ℚ
  constantAUC : Bool
  canvasW : ℚ
  canvasH : ℚ
  gutterX : ℚ
  gutterY : ℚ
  paddingX : ℚ
  paddingY : ℚ
  precisionStart : ℚ
  precisionPadding : ℚ

/-- `get scale()`: `this.x.length / this.scaleFactor`. -/
def Distribution.scale (d : Distribution) : ℚ :=
  (d.x.length : ℚ) / d.scaleFactor

/-- `getSD(precision)`: `1 / (Distribution.root2pi * precision / this.scale)`. -/
def Distribution.getSD (d : Distribution) (precision : ℚ) : ℚ :=
  1 / (Distribution.root2pi * precision / d.scale)

/-- The evaluation done inside each search cycle of
`findPrecisionWhichAdjustsTo`: build the density at `testPrecision`,
AUC-adjust it, read the entry at `this.bet.index` and rescale.
A JavaScript out-of-range read would give `undefined`; `getD ... 0` stands in
(the concrete instances used in theorems keep the index in range or make the
same branch decisions as the `NaN` run would). -/
def Distribution.adjustedAt (d : Distribution) (testPrecision : ℚ) : ℚ :=
  (Distribution.adjustForConstantAUC d.betOn d.x
      (Distribution.f d.mathExp d.x d.betOn (d.getSD testPrecision))).getD d.betIndex 0
    * d.scale

/-- Mutable state of the search loop in `findPrecisionWhichAdjustsTo`;
`bestError = none` models the initial `Infinity`. -/
structure SearchState where
  testPrecision : ℚ
  searchDownwards : Bool
  stepSize : ℚ
  bestInput : ℚ
  bestResult : ℚ
  bestError : Option ℚ
deriving DecidableEq

/-- `best.error > error` with `best.error` possibly `Infinity`. -/
def errImproves : Option ℚ → ℚ → Bool
  | none, _ => true
  | some b, e => decide (e < b)

/-- The final statement of each loop body:
`testPrecision += (searchDownwards ? -1 : 1) * stepSize`. -/
def SearchState.step (st : SearchState) : SearchState :=
  { st with testPrecision := st.testPrecision + (if st.searchDownwards then -1 else 1) * st.stepSize }

/-- The `while(cycles++ < maxCycles)` loop of `findPrecisionWhichAdjustsTo`,
by recursion on the remaining budget `fuel = maxCycles - cycles`.  The
function's return value is `cycles >= maxCycles ? NaN : best.input`; `none`
models `NaN`.  When the loop exits by exhaustion, `cycles` ends at
`maxCycles + 1`, hence `none`; when it exits through the `break` after an
update that reaches `best.error < maxError`, `cycles` equals the number of
iterations run, which is `≥ maxCycles` exactly when the `break` happened on
the last budgeted iteration (`fuel = 0` after the test). -/
def findGo (ev : ℚ → ℚ) (targetPrecision maxError : ℚ) : SearchState → ℕ → Option ℚ
  | _, 0 => none
  | st, fuel + 1 =>
    let result := ev st.testPrecision
    let error := |result - targetPrecision|
    if errImproves st.bestError error then
      let st1 := { st with bestInput := st.testPrecision, bestResult := result,
                           bestError := some error }
      if error < maxError then
        (if fuel = 0 then none else some st1.bestInput)
      else findGo ev targetPrecision maxError st1.step fuel
    else
      let st2 := { st with stepSize := st.stepSize / 2,
                           searchDownwards := !st.searchDownwards,
                           testPrecision := st.bestInput }
      findGo ev targetPrecision maxError st2.step fuel

/-- `findPrecisionWhichAdjustsTo(targetPrecision, maxError = 1e-5,
maxCycles = 1000)`: initial state `testPrecision = targetPrecision`,
`searchDownwards = false`, `stepSize = 0.5`,
`best = {input: testPrecision, result: testPrecision, error: Infinity}`. -/
def Distribution.findPrecisionWhichAdjustsTo (d : Distribution)
    (targetPrecision maxError : ℚ) (maxCycles : ℕ) : Option ℚ :=
  findGo d.adjustedAt targetPrecision maxError
    ⟨targetPrecision, false, 1/2, targetPrecision, targetPrecision, none⟩ maxCycles

/-- `getPixelRatio(this.x.length, canvas.clientWidth).ratio`:
`Math.floor(pixels / points)`. -/
def Distribution.pixelsPerPointX (d : Distribution) : ℚ :=
  ((⌊d.canvasW / (d.x.length : ℚ)⌋ : ℤ) : ℚ)

/-- `get gutter()`: `graphGap = clientWidth - pixelsPerPoint.x * (xMax - xMin)`;
horizontal gutter is `style.gutterX + graphGap/2`. -/
def Distribution.graphGap (d : Distribution) : ℚ :=
  d.canvasW - d.pixelsPerPointX * (d.xMax - d.xMin)

/-- `get panel().left = gutter.x + style.paddingX`. -/
def Distribution.panelLeft (d : Distribution) : ℚ :=
  (d.gutterX + d.graphGap / 2) + d.paddingX

/-- `get panel().top = gutter.y + style.paddingY`. -/
def Distribution.panelTop (d : Distribution) : ℚ :=
  d.gutterY + d.paddingY

/-- `get panel().width = clientWidth - left*2`. -/
def Distribution.panelWidth (d : Distribution) : ℚ :=
  d.canvasW - d.panelLeft * 2

/-- `get panel().height = clientHeight - top*2`. -/
def Distribution.panelHeight (d : Distribution) : ℚ :=
  d.canvasH - d.panelTop * 2

/-- Scalar branch of `valueToX(value)`:
`panel.left + panel.width / x.length * (value - xMin) + pixelsPerPoint.x/2`. -/
def Distribution.valueToX (d : Distribution) (value : ℚ) : ℚ :=
  d.panelLeft + d.panelWidth / (d.x.length : ℚ) * (value - d.xMin) + d.pixelsPerPointX / 2

/-- Scalar branch of `xToValue(x)`:
`Math.min(Math.floor(x / panel.width * x.length), x.length - 1)` — despite its
name it returns a grid index. -/
def Distribution.xToValue (d : Distribution) (x : ℚ) : ℤ :=
  min ⌊x / d.panelWidth * (d.x.length : ℚ)⌋ ((d.x.length : ℤ) - 1)

/-- `get precisionScale()`:
`panel.height / (maxPrecision + style.precisionPadding)`. -/
def Distribution.precisionScale (d : Distribution) : ℚ :=
  d.panelHeight / (d.maxPrecision + d.precisionPadding)

/-- Scalar branch of `precisionToY(precision)`:
`(precision - style.precisionStart) * precisionScale`. -/
def Distribution.precisionToY (d : Distribution) (precision : ℚ) : ℚ :=
  (precision - d.precisionStart) * d.precisionScale

/-- Scalar branch of `yToPrecision(y)`:
`y / precisionScale + style.precisionStart`. -/
def Distribution.yToPrecision (d : Distribution) (y : ℚ) : ℚ :=
  y / d.precisionScale + d.precisionStart

/-- `get payoutScale()`:
`(maxPrecision - minPrecision) / (maxBet - minBet) * precisionScale`. -/
def Distribution.payoutScale (d : Distribution) : ℚ :=
  (d.maxPrecision - d.minPrecision) / (d.maxBet - d.minBet) * d.precisionScale

/-- Scalar branch of `payoutToY(payout)`. -/
def Distribution.payoutToY (d : Distribution) (payout : ℚ) : ℚ :=
  (d.minPrecision - d.precisionStart) * d.precisionScale + (payout - d.minBet) * d.payoutScale

/-- The capping ternary of `yToPayout`:
`out < minPayout ? minPayout : out > maxPayout ? maxPayout : out`, where the
default `minPayout = -Infinity` / `maxPayout = Infinity` (modelled by `none`)
makes the corresponding comparison false. -/
def capPayout : Option ℚ → Option ℚ → ℚ → ℚ
  | some lo, some hi, out => if out < lo then lo else if hi < out then hi else out
  | some lo, none, out => if out < lo then lo else out
  | none, some hi, out => if hi < out then hi else out
  | none, none, out => out

/-- Scalar branch of `yToPayout(y, capByPayoutLimits = true)`. -/
def Distribution.yToPayout (d : Distribution) (capByPayoutLimits : Bool) (y : ℚ) : ℚ :=
  let out := d.minBet +
    (y - (d.minPrecision - d.precisionStart) * d.precisionScale) / d.payoutScale
  if capByPayoutLimits then capPayout d.minPayout d.maxPayout out else out

/-- The clamp in `updateFromCursor`:
`p < minPrecision ? minPrecision : p > maxPrecision ? maxPrecision : p`.
When `p` is `NaN` (`none`) both comparisons are false, so `NaN` passes
through unchanged. -/
def clampPrecision (lo hi : ℚ) : Option ℚ → Option ℚ
  | none => none
  | some p => some (if p < lo then lo else if hi < p then hi else p)

/-- The bet fields written by `updateFromCursor` after the mean is set. -/
structure BetOut where
  precision : Option ℚ
  y : Option ℚ
  amount : Option ℚ
deriving DecidableEq

/-- The precision/y/amount slice of `updateFromCursor`: raw precision from the
cursor, replaced by `findPrecisionWhichAdjustsTo(raw)` (defaults
`maxError = 1e-5`, `maxCycles = 1000`) in constant-AUC mode, then clamped,
then `bet.y = precisionToY(bet.precision)` and
`bet.amount = yToPayout(bet.y)`.  Arithmetic on `NaN` yields `NaN`
(`Option.map`), and the cap comparisons on `NaN` are false. -/
def Distribution.updateBet (d : Distribution) (rawPrecision : ℚ) : BetOut :=
  let p0 : Option ℚ :=
    if d.constantAUC then d.findPrecisionWhichAdjustsTo rawPrecision (1/100000) 1000
    else some rawPrecision
  let p1 := clampPrecision d.minPrecision d.maxPrecision p0
  let y1 := p1.map d.precisionToY
  let a1 := y1.map (d.yToPayout true)
  ⟨p1, y1, a1⟩

/-- `animatePayout(xIndex, pixelsPerFrame, frameNumber)`: each frame recomputes
`y = this.y[xIndex] ∓ pixelsPerFrame * frameNumber` (the stored column height
`y0` is not mutated during the animation), sets `end` when the sign crossed
relative to `y0`'s, clamps the emitted value to `0` on the end frame, invokes
`onAnimationFrame(xIndex, y, ...)` every frame, and recurses via `setTimeout`
until `end`, when `onAnimationEnd` fires once.  The recursion has no static
bound, so it is embedded with a fuel argument; the result is the list of `y`
values passed to `onAnimationFrame` and the frame number at which
`onAnimationEnd` fired (`none` if the fuel ran out first). -/
def animateRun (pixelsPerFrame y0 : ℚ) : ℕ → ℕ → List ℚ × Option ℕ
  | _, 0 => ([], none)
  | frameNumber, fuel + 1 =>
    let lt0 := decide (y0 < 0)
    let y := if lt0 then y0 + pixelsPerFrame * (frameNumber : ℚ)
             else y0 - pixelsPerFrame * (frameNumber : ℚ)
    let e := decide (y < 0) != lt0
    let yOut := if e then 0 else y
    if e then ([yOut], some frameNumber)
    else
      let rest := animateRun pixelsPerFrame y0 (frameNumber + 1) fuel
      (yOut :: rest.1, rest.2)

/-- Mouse event payload as read by `getCursorCoordinates`. -/
structure MouseEventData where
  clientX : ℚ
  clientY : ℚ
deriving DecidableEq

/-- The surface handle: the fields of the canvas element the engine reads. -/
structure Canvas where
  clientWidth : ℚ
  clientHeight : ℚ
deriving DecidableEq

/-- Uncaught JavaScript exceptions distinguished by the model. -/
inductive JsError
  | typeError
deriving DecidableEq

/-- How a `drawToCanvas(clickEvent)` call returns. -/
inductive DrawOutcome
  | loggedNoEvent
  | loggedNoCanvas
  | drew
deriving DecidableEq

/-- `drawToCanvas`'s guard flow: a `null` event logs and returns; a `null`
`this.canvas` logs `No canvas defined for drawToCanvas` and returns before
any canvas member is touched; otherwise the update/render pipeline runs
(its drawing effects are out of scope — the relevant fact here is that this
branch is only reachable with a non-null canvas, so the body's canvas
dereferences cannot throw on `null`). -/
def drawToCanvas (canvas : Option Canvas) (clickEvent : Option MouseEventData) :
    Except JsError DrawOutcome :=
  match clickEvent with
  | none => .ok .loggedNoEvent
  | some _ =>
    match canvas with
    | none => .ok .loggedNoCanvas
    | some _ => .ok .drew

/-- `registerCanvas(canvas)`: executes `this.canvas = canvas` and then
`this.canvas.distribution = this`, which throws `TypeError` when the argument
is `null` — after the field was already set.  Result: the value of the
`canvas` field after the call, and the call's outcome. -/
def registerCanvas (canvas : Option Canvas) : Option Canvas × Except JsError Unit :=
  (canvas,
    match canvas with
    | none => .error .typeError
    | some _ => .ok ())

/-- The constructor arguments the verified slice reads; `none` models an
omitted (`undefined`) argument. -/
structure CtorArgs where
  canvas : Option Canvas
  xMin : Option ℚ
  xMax : Option ℚ
  xPoints : Option ℚ
  reverseX : Option Bool
deriving DecidableEq

/-- The constructed state the verified slice observes. -/
structure CtorState where
  canvas : Option Canvas
  x : List ℚ
deriving DecidableEq

/-- Constructor slice: `args.canvas` defaults to `null` when `undefined`
(so both map to `none`); `registerCanvas(canvas)` runs before the grid is
built, and a `TypeError` thrown there aborts construction, so no instance is
returned; otherwise the axis defaults are resolved
(`xMin = 0`, `xMax = 100`, `xPoints = xMax - xMin`, `reverseX = false`) and
the grid is built. -/
def construct (args : CtorArgs) : Except JsError CtorState :=
  let canvas := args.canvas
  match (registerCanvas canvas).2 with
  | .error err => .error err
  | .ok () =>
    let xMin := args.xMin.getD 0
    let xMax := args.xMax.getD 100
    let xPoints := args.xPoints.getD (xMax - xMin)
    let reverseX := args.reverseX.getD false
    .ok { canvas := (registerCanvas canvas).1,
          x := Distribution.makeX xMin xMax xPoints reverseX }

/-- A concrete engine whose search-cycle evaluation is the identity map:
one grid point `x = [0]` with the bet on it, `Math.exp` evaluated only at `0`
(where it is `1`, here a constant-one stand-in), `scaleFactor = 10`.  Then
`adjustedAt t = (1/(root2pi·getSD t)) · 1 · scale = t` exactly. -/
def dIdentity : Distribution :=
  { mathExp := fun _ => 1
    x := [0]
    xMin := 0
    xMax := 100
    betOn := 0
    betIndex := 0
    scaleFactor := 10
    minPrecision := 1/10
    maxPrecision := 9/10
    minBet := 1/10
    maxBet := 9/10
    minPayout := none
    maxPayout := none
    constantAUC := true
    canvasW := 400
    canvasH := 300
    gutterX := 0
    gutterY := 0
    paddingX := 0
    paddingY := 0
    precisionStart := 0
    precisionPadding := 1/5 }

/-- A concrete engine with an empty grid (as a configuration with
`xMax < xMin` produces): every search cycle evaluates to `0` in the model;
the JavaScript run reads `undefined` at `bet.index`, makes every error
comparison false, and likewise never breaks — both exhaust the budget and
return `NaN`. -/
def dEmpty : Distribution :=
  { dIdentity with x := [] }

/-- A concrete engine geometry for the coordinate-mapper claims:
default axis (`xMin = 0`, `xMax = 100`, grid `0,1,...,100` of length 101),
`canvas.clientWidth = 400`, zero gutters and paddings.  Derived values:
`pixelsPerPoint.x = ⌊400/101⌋ = 3`, `graphGap = 100`, `panel.left = 50`,
`panel.width = 300`. -/
def dGeom : Distribution :=
  { dIdentity with
    x := Distribution.makeX 0 100 100 false
    constantAUC := false }

theorem utils.sum_map_adjust (r s : ℚ) :
    ∀ ys : List ℚ, utils.sum (ys.map (fun y => y + r * (y / s))) =
      utils.sum ys + r * (utils.sum ys / s) := by
  intro ys
  induction ys with
  | nil => simp [utils.sum]
  | cons a t ih =>
    simp only [List.map_cons, utils.sum, ih]
    ring

theorem utils.sum_pos : ∀ ys : List ℚ, ys ≠ [] → (∀ y ∈ ys, 0 < y) → 0 < utils.sum ys := by
  intro ys
  induction ys with
  | nil => intro h; exact absurd rfl h
  | cons a t ih =>
    intro _ hpos
    have ha : 0 < a := hpos a (List.mem_cons_self a t)
    rcases t with _ | ⟨b, t'⟩
    · simpa [utils.sum] using ha
    · have ht : 0 < utils.sum (b :: t') :=
        ih (by simp) (fun y hy => hpos y (List.mem_cons_of_mem a hy))
      show 0 < a + utils.sum (b :: t')
      positivity

theorem adjustForConstantAUC_length (x : ℚ) (xs ys : List ℚ) :
    (Distribution.adjustForConstantAUC x xs ys).length = ys.length := by
  by_cases h : 0 < Distribution.remainderOf x xs ys / ((xs.length : ℚ)) <;>
    simp [Distribution.adjustForConstantAUC, h]

/-- C1: the claim states the exponential's denominator is `2·sd²`; the code's
`w = Math.pow(2*sd, 2)` makes it `4·sd²`.  At `xs = [1]`, `mean = 0`,
`sd = 1`, and with the exponential replaced by the identity so the argument
passed to it is visible, the code's density carries exponent argument
`-(1/4)` where the specified symmetric normal density carries `-(1/2)`, and
the two results differ. -/
theorem f_exponent_quarter_not_half :
    Distribution.f (fun q : ℚ => q) [1] 0 1 = [1 / Distribution.root2pi * (-(1/4))] ∧
    densitySpec (fun q : ℚ => q) [1] 0 1 = [1 / Distribution.root2pi * (-(1/2))] ∧
    Distribution.f (fun q : ℚ => q) [1] 0 1 ≠ densitySpec (fun q : ℚ => q) [1] 0 1 :=
  ⟨by decide, by decide, by decide⟩

/-- C2: the claim states the constructed grid has `xPoints + 1` evenly spaced
values ending at `xMax`.  With `xMin = 0`, `xMax = 10`, `xPoints = 5` the
loop `for(i = 0; i <= xMax - xMin; i++)` instead produces the 11 values
`0,2,...,20` with spacing `(xMax-xMin)/xPoints = 2`: the length is not
`xPoints + 1 = 6` and the last value is `20`, not `xMax = 10`. -/
theorem makeX_ignores_xPoints :
    Distribution.makeX 0 10 5 false = [0, 2, 4, 6, 8, 10, 12, 14, 16, 18, 20] ∧
    (Distribution.makeX 0 10 5 false).length ≠ 5 + 1 ∧
    (Distribution.makeX 0 10 5 false).getLast? ≠ some 10 :=
  ⟨by decide, by decide, by decide⟩

/-- C3 counterexample: calling `adjustForConstantAUC(0, xs, ys)` on the store
holding `xs = [1]` at reference 0 and `ys = [2]` at reference 1 returns the
input array's own reference (not a distinct sequence) and mutates the input
in place to `[4]`. -/
theorem adjustCall_aliases_and_mutates :
    (adjustForConstantAUCCall 0 0 1 ⟨[[1], [2]]⟩).1 = 1 ∧
    (adjustForConstantAUCCall 0 0 1 ⟨[[1], [2]]⟩).2.read 1 = [4] ∧
    ([4] : List ℚ) ≠ [2] :=
  ⟨by decide, by decide, by decide⟩

/-- C3 as amended: `adjustForConstantAUC` returns the `yValues` array itself
(the same reference), with its contents replaced by the adjusted values —
mutated in place whenever the redistribution guard fires — and the result
always has the same length as the input. -/
theorem adjustCall_in_place (xv : ℚ) (xsRef ysRef : ℕ) (s : Store)
    (hys : ysRef < s.heap.length) :
    (adjustForConstantAUCCall xv xsRef ysRef s).1 = ysRef ∧
    (adjustForConstantAUCCall xv xsRef ysRef s).2.read ysRef =
      Distribution.adjustForConstantAUC xv (s.read xsRef) (s.read ysRef) ∧
    ((adjustForConstantAUCCall xv xsRef ysRef s).2.read ysRef).length =
      (s.read ysRef).length := by
  have hrw : ∀ v : List ℚ, (s.write ysRef v).read ysRef = v := by
    intro v
    show (s.heap.set ysRef v).getD ysRef [] = v
    rw [List.getD_eq_getElem?_getD, List.getElem?_set_self (by simpa using hys)]
    rfl
  by_cases h : 0 < Distribution.remainderOf xv (s.read xsRef) (s.read ysRef) /
      (((s.read xsRef).length : ℚ))
  · refine ⟨?_, ?_, ?_⟩
    · simp [adjustForConstantAUCCall, h]
    · simp only [adjustForConstantAUCCall, h, if_pos]
      rw [hrw]
      simp [Distribution.adjustForConstantAUC, h]
    · simp only [adjustForConstantAUCCall, h, if_pos]
      rw [hrw]
      simp
  · refine ⟨?_, ?_, ?_⟩
    · simp [adjustForConstantAUCCall, h]
    · simp only [adjustForConstantAUCCall, h, if_neg, not_false_iff]
      simp [Distribution.adjustForConstantAUC, h]
    · simp [adjustForConstantAUCCall, h]

/-- C3 amended-claim witness at the concrete store of the counterexample. -/
theorem adjustCall_in_place_check :
    (adjustForConstantAUCCall 0 0 1 ⟨[[1], [2]]⟩).1 = 1 ∧
    (adjustForConstantAUCCall 0 0 1 ⟨[[1], [2]]⟩).2.read 1 =
      Distribution.adjustForConstantAUC 0 ((⟨[[1], [2]]⟩ : Store).read 0)
        ((⟨[[1], [2]]⟩ : Store).read 1) ∧
    ((adjustForConstantAUCCall 0 0 1 ⟨[[1], [2]]⟩).2.read 1).length =
      ((⟨[[1], [2]]⟩ : Store).read 1).length :=
  adjustCall_in_place 0 0 1 ⟨[[1], [2]]⟩ (by decide)

/-- C4: mass conservation of the AUC normalizer.  For a nonempty grid with
positive `yValues` (one per grid point), the sum of the adjusted curve equals
the sum of the input curve plus the computed remainder exactly. -/
theorem adjust_mass_conservation (xv : ℚ) (xs ys : List ℚ)
    (hne : xs ≠ []) (hlen : ys.length = xs.length) (hpos : ∀ y ∈ ys, 0 < y) :
    utils.sum (Distribution.adjustForConstantAUC xv xs ys) =
      utils.sum ys + Distribution.remainderOf xv xs ys := by
  have hyne : ys ≠ [] := by
    intro hnil
    apply hne
    rw [hnil] at hlen
    exact List.length_eq_zero.mp hlen.symm
  have hs : 0 < utils.sum ys := utils.sum_pos ys hyne hpos
  unfold Distribution.adjustForConstantAUC
  by_cases h : 0 < Distribution.remainderOf xv xs ys / ((xs.length : ℚ))
  · simp only [h, if_pos]
    rw [utils.sum_map_adjust]
    rw [div_self hs.ne']
    ring
  · simp only [h, if_neg, not_false_iff]
    have hlenpos : 0 < ((xs.length : ℚ)) := by
      have : xs.length ≠ 0 := fun h0 => hne (List.length_eq_zero.mp h0)
      positivity
    have hr0 : Distribution.remainderOf xv xs ys ≤ 0 := by
      by_contra hr
      exact h (div_pos (lt_of_not_le hr) hlenpos)
    have hr0' : 0 ≤ Distribution.remainderOf xv xs ys := abs_nonneg _
    have : Distribution.remainderOf xv xs ys = 0 := le_antisymm hr0 hr0'
    rw [this]
    ring

/-- C4 witness: the concrete instance `xv = 0`, `xs = [1]`, `ys = [2]`. -/
theorem adjust_mass_conservation_check :
    utils.sum (Distribution.adjustForConstantAUC 0 [1] [2]) =
      utils.sum [2] + Distribution.remainderOf 0 [1] [2] :=
  adjust_mass_conservation 0 [1] [2] (by decide) (by decide) (by decide)

theorem findGo_none_of_far (ev : ℚ → ℚ) (target maxErr : ℚ)
    (h : ∀ t, maxErr ≤ |ev t - target|) :
    ∀ (fuel : ℕ) (st : SearchState), findGo ev target maxErr st fuel = none := by
  intro fuel
  induction fuel with
  | zero => intro st; rfl
  | succ m ih =>
    intro st
    show findGo ev target maxErr st (m + 1) = none
    rw [findGo]
    by_cases himp : errImproves st.bestError |ev st.testPrecision - target| = true
    · rw [if_pos himp, if_neg (not_lt.mpr (h st.testPrecision))]
      exact ih _
    · rw [if_neg himp]
      exact ih _

theorem findGo_break_early (ev : ℚ → ℚ) (target maxErr : ℚ) (st : SearchState)
    (himp : errImproves st.bestError |ev st.testPrecision - target| = true)
    (hconv : |ev st.testPrecision - target| < maxErr) (fuel : ℕ) :
    findGo ev target maxErr st (fuel + 2) = some st.testPrecision := by
  show findGo ev target maxErr st ((fuel + 1) + 1) = some st.testPrecision
  rw [findGo, if_pos himp, if_pos hconv, if_neg (Nat.succ_ne_zero fuel)]

theorem findGo_break_last (ev : ℚ → ℚ) (target maxErr : ℚ) (st : SearchState)
    (himp : errImproves st.bestError |ev st.testPrecision - target| = true)
    (hconv : |ev st.testPrecision - target| < maxErr) :
    findGo ev target maxErr st 1 = none := by
  show findGo ev target maxErr st (0 + 1) = none
  rw [findGo, if_pos himp, if_pos hconv, if_pos rfl]

theorem dEmpty_adjustedAt (t : ℚ) : dEmpty.adjustedAt t = 0 := by
  simp [Distribution.adjustedAt, Distribution.f, Distribution.adjustForConstantAUC,
    Distribution.remainderOf, Distribution.tailDiff, dEmpty, dIdentity]

/-- C5 counterexample: an engine whose search-cycle evaluation is the
identity, target `1/2`, default `maxError = 1e-5`, `maxCycles = 1`.  The very
first cycle converges — the error `|adjustedAt(1/2) - 1/2| = 0` is below
`maxError`, the loop takes the early `break` — yet the function returns `NaN`
(`cycles++` already reached `maxCycles`), contradicting "returns NaN if and
only if the budget is exhausted without the best error reaching below
maxError". -/
theorem findPrecision_nan_despite_convergence :
    |dIdentity.adjustedAt (1/2) - 1/2| < 1/100000 ∧
    dIdentity.findPrecisionWhichAdjustsTo (1/2) (1/100000) 1 = none :=
  ⟨by decide, by decide⟩

/-- C5 as amended: the search does break as soon as the best error drops
below `maxError`, but the returned-`NaN` test is on the post-incremented
cycle counter: (i) convergence on the first cycle with at least two budgeted
cycles returns the best test precision; (ii) convergence on the first cycle
with `maxCycles = 1` — i.e. on the final allowed cycle — still returns
`NaN`; (iii) if no test precision ever evaluates within `maxError` of the
target, every budget is exhausted and `NaN` is returned. -/
theorem findPrecision_cycle_semantics :
    (∀ (d : Distribution) (target maxErr : ℚ) (k : ℕ),
        |d.adjustedAt target - target| < maxErr →
        d.findPrecisionWhichAdjustsTo target maxErr (k + 2) = some target) ∧
    (∀ (d : Distribution) (target maxErr : ℚ),
        |d.adjustedAt target - target| < maxErr →
        d.findPrecisionWhichAdjustsTo target maxErr 1 = none) ∧
    (∀ (d : Distribution) (target maxErr : ℚ) (maxCycles : ℕ),
        (∀ t, maxErr ≤ |d.adjustedAt t - target|) →
        d.findPrecisionWhichAdjustsTo target maxErr maxCycles = none) := by
  refine ⟨?_, ?_, ?_⟩
  · intro d target maxErr k hconv
    show findGo d.adjustedAt target maxErr
      ⟨target, false, 1/2, target, target, none⟩ (k + 2) = some target
    exact findGo_break_early d.adjustedAt target maxErr
      ⟨target, false, 1/2, target, target, none⟩ rfl hconv k
  · intro d target maxErr hconv
    show findGo d.adjustedAt target maxErr
      ⟨target, false, 1/2, target, target, none⟩ 1 = none
    exact findGo_break_last d.adjustedAt target maxErr
      ⟨target, false, 1/2, target, target, none⟩ rfl hconv
  · intro d target maxErr maxCycles h
    exact findGo_none_of_far d.adjustedAt target maxErr h maxCycles _

/-- C5 amended-claim witness: the identity-evaluation engine converges on the
first cycle and, given two budgeted cycles, gets its best precision back;
the empty-grid engine never gets within `1e-5` of target `10` and returns
`NaN` with the default budget. -/
theorem findPrecision_cycle_semantics_check :
    dIdentity.findPrecisionWhichAdjustsTo (1/2) 1 2 = some (1/2) ∧
    dEmpty.findPrecisionWhichAdjustsTo 10 (1/100000) 1000 = none := by
  constructor
  · exact findPrecision_cycle_semantics.1 dIdentity (1/2) 1 0 (by decide)
  · exact findPrecision_cycle_semantics.2.2 dEmpty 10 (1/100000) 1000
      (fun t => by rw [dEmpty_adjustedAt]; norm_num)

/-- C6 counterexample: a constant-AUC pointer update on the empty-grid engine
(the search signals `NaN`): the clamp passes `NaN` through, and `NaN` lands
in the bet's precision, y-coordinate and amount — the prior precision is not
retained. -/
theorem updateBet_nan_reaches_bet :
    dEmpty.constantAUC = true ∧
    dEmpty.findPrecisionWhichAdjustsTo 10 (1/100000) 1000 = none ∧
    (dEmpty.updateBet 10).precision = none ∧
    (dEmpty.updateBet 10).y = none ∧
    (dEmpty.updateBet 10).amount = none := by
  have hAUC : dEmpty.constantAUC = true := rfl
  have hsearch : dEmpty.findPrecisionWhichAdjustsTo 10 (1/100000) 1000 = none :=
    findGo_none_of_far dEmpty.adjustedAt 10 (1/100000)
      (fun t => by rw [dEmpty_adjustedAt]; norm_num) 1000 _
  have hsearch2 := hsearch
  rw [one_div] at hsearch2
  refine ⟨hAUC, hsearch, ?_, ?_, ?_⟩ <;>
    simp [Distribution.updateBet, hAUC, hsearch2, clampPrecision]

/-- C6 as amended: whenever the precision search signals `NaN` in
constant-AUC mode, the clamp's two comparisons are false on `NaN`, so `NaN`
propagates unchanged into the bet's precision, and from there into the
y-coordinate and the amount. -/
theorem updateBet_nan_propagates (d : Distribution) (rawPrecision : ℚ)
    (hAUC : d.constantAUC = true)
    (hsearch : d.findPrecisionWhichAdjustsTo rawPrecision (1/100000) 1000 = none) :
    (d.updateBet rawPrecision).precision = none ∧
    (d.updateBet rawPrecision).y = none ∧
    (d.updateBet rawPrecision).amount = none := by
  rw [one_div] at hsearch
  refine ⟨?_, ?_, ?_⟩ <;> simp [Distribution.updateBet, hAUC, hsearch, clampPrecision]

/-- C6 amended-claim witness at the empty-grid engine. -/
theorem updateBet_nan_propagates_check :
    (dEmpty.updateBet 10).precision = none ∧
    (dEmpty.updateBet 10).y = none ∧
    (dEmpty.updateBet 10).amount = none :=
  updateBet_nan_propagates dEmpty 10 rfl
    (findGo_none_of_far dEmpty.adjustedAt 10 (1/100000)
      (fun t => by rw [dEmpty_adjustedAt]; norm_num) 1000 _)

/-- C8 counterexample: with `y0 = 40` and `pixelsPerFrame = 5`, the observer
receives ten frames `40,35,...,5,0,0`, not the claimed nine: the end test
`y < 0 !== lt0` is false on the frame where `y` first reaches `0`, so the
zero is emitted again on the following frame, where the raw value first goes
negative and is clamped. -/
theorem animate_emits_ten_frames :
    animateRun 5 40 0 20 = ([40, 35, 30, 25, 20, 15, 10, 5, 0, 0], some 9) ∧
    (animateRun 5 40 0 20).1.length ≠ 9 :=
  ⟨by decide, by decide⟩

/-- C8 as amended: the reveal animation from `y0 = 40` at 5 pixels per frame
emits `40,35,30,25,20,15,10,5,0,0` — ten frames, with the zero frame emitted
twice — the emitted value is never negative, and `onAnimationEnd` fires
exactly once, on frame number 9, the frame after the value first reaches 0
(the run stops there, so the hook cannot fire again). -/
theorem animate_trajectory :
    animateRun 5 40 0 20 = ([40, 35, 30, 25, 20, 15, 10, 5, 0, 0], some 9) ∧
    (∀ y ∈ (animateRun 5 40 0 20).1, 0 ≤ y) ∧
    (animateRun 5 40 0 20).2 = some 9 :=
  ⟨by decide, by decide, by decide⟩

/-- C9: an update (`drawToCanvas`) invoked with a non-null event while the
engine's canvas handle is `null` logs the condition and returns — an `.ok`
no-op outcome, never a thrown `TypeError` — and the one way a live instance
can reach a `null` handle through the public interface, `registerCanvas(null)`,
leaves the handle `null` (the field is assigned before the registration body
throws). -/
theorem drawToCanvas_null_is_safe_noop :
    (∀ ev : MouseEventData, drawToCanvas none (some ev) = .ok .loggedNoCanvas) ∧
    (registerCanvas none).1 = none ∧
    (registerCanvas none).2 = .error .typeError :=
  ⟨fun _ => rfl, rfl, rfl⟩

/-- C10: constructing with `args.canvas` omitted throws a `TypeError` inside
`registerCanvas` (dereferencing the `null` default), so construction returns
no instance; every successfully constructed instance has a non-null canvas
handle; and on such an instance `drawToCanvas` can never take the
null-canvas guard branch. -/
theorem construct_requires_canvas :
    construct ⟨none, none, none, none, none⟩ = .error .typeError ∧
    (∀ (args : CtorArgs) (st : CtorState), construct args = .ok st → st.canvas ≠ none) ∧
    (∀ (args : CtorArgs) (st : CtorState) (ev : MouseEventData),
        construct args = .ok st → drawToCanvas st.canvas (some ev) ≠ .ok .loggedNoCanvas) := by
  refine ⟨rfl, ?_, ?_⟩
  · rintro ⟨canvas, xMin, xMax, xPoints, reverseX⟩ st h
    cases canvas with
    | none => simp [construct, registerCanvas] at h
    | some c =>
      simp only [construct, registerCanvas] at h
      cases h
      simp
  · rintro ⟨canvas, xMin, xMax, xPoints, reverseX⟩ st ev h
    cases canvas with
    | none => simp [construct, registerCanvas] at h
    | some c =>
      simp only [construct, registerCanvas] at h
      cases h
      simp [drawToCanvas]

/-- C10 witness: a concrete construction with a canvas supplied succeeds,
yields a non-null handle, and its `drawToCanvas` does not take the
null-canvas branch. -/
theorem construct_requires_canvas_check :
    (⟨some ⟨400, 300⟩, Distribution.makeX 0 100 (100 - 0) false⟩ : CtorState).canvas ≠ none ∧
    drawToCanvas
        (⟨some ⟨400, 300⟩, Distribution.makeX 0 100 (100 - 0) false⟩ : CtorState).canvas
        (some ⟨0, 0⟩) ≠ .ok .loggedNoCanvas :=
  ⟨construct_requires_canvas.2.1 ⟨some ⟨400, 300⟩, none, none, none, none⟩ _ rfl,
   construct_requires_canvas.2.2 ⟨some ⟨400, 300⟩, none, none, none, none⟩ _ ⟨0, 0⟩ rfl⟩

theorem makeX_canonical_length (xMin xMax : ℚ) (n : ℕ) (hn : xMax - xMin = (n : ℚ)) :
    (Distribution.makeX xMin xMax (xMax - xMin) false).length = n + 1 := by
  unfold Distribution.makeX
  rw [hn]
  simp only [Int.floor_natCast, Bool.false_eq_true, if_false, List.length_map,
    List.length_range]
  omega

theorem makeX_canonical_getD (xMin xMax : ℚ) (n : ℕ) (hn : xMax - xMin = (n : ℚ))
    (hn0 : (n : ℚ) ≠ 0) (i : ℕ) (hi : i < n + 1) :
    (Distribution.makeX xMin xMax (xMax - xMin) false).getD i 0 = xMin + (i : ℚ) := by
  unfold Distribution.makeX
  rw [hn]
  simp only [Int.floor_natCast, Bool.false_eq_true, if_false]
  have hcount : ((n : ℤ) + 1).toNat = n + 1 := by omega
  rw [hcount, List.getD_eq_getElem?_getD, List.getElem?_map, List.getElem?_range hi]
  simp [div_self hn0]

theorem xToValue_valueToX_panel (d : Distribution) (n : ℕ)
    (hx : d.x = Distribution.makeX d.xMin d.xMax (d.xMax - d.xMin) false)
    (hn : d.xMax - d.xMin = (n : ℚ)) (h2 : 2 ≤ n)
    (hg : d.gutterX = 0) (hp : d.paddingX = 0)
    (hppx : 1 ≤ ⌊d.canvasW / ((n : ℚ) + 1)⌋)
    (i : ℕ) (hi : i ≤ n) :
    d.xToValue (d.valueToX (d.x.getD i 0) - d.panelLeft) = (i : ℤ) := by
  have hnQ : (0 : ℚ) < (n : ℚ) := by
    have : 0 < n := by omega
    exact_mod_cast this
  have hn0 : (n : ℚ) ≠ 0 := hnQ.ne'
  have hlen : d.x.length = n + 1 := by
    rw [hx]; exact makeX_canonical_length d.xMin d.xMax n hn
  have hval : d.x.getD i 0 = d.xMin + (i : ℚ) := by
    rw [hx]; exact makeX_canonical_getD d.xMin d.xMax n hn hn0 i (by omega)
  set ppx : ℚ := d.pixelsPerPointX with hppxdef
  have hppxQ : (1 : ℚ) ≤ ppx := by
    rw [hppxdef]
    unfold Distribution.pixelsPerPointX
    rw [hlen]
    push_cast
    exact_mod_cast hppx
  have hppx0 : (0 : ℚ) < ppx := lt_of_lt_of_le one_pos hppxQ
  have hW : d.panelWidth = ppx * (n : ℚ) := by
    simp only [Distribution.panelWidth, Distribution.panelLeft, Distribution.graphGap,
      ← hppxdef, hg, hp, hn]
    ring
  have hWpos : 0 < d.panelWidth := by rw [hW]; exact mul_pos hppx0 hnQ
  have harg : d.valueToX (d.x.getD i 0) - d.panelLeft =
      d.panelWidth / ((n : ℚ) + 1) * (i : ℚ) + ppx / 2 := by
    rw [hval]
    simp only [Distribution.valueToX, hlen, ← hppxdef]
    push_cast
    ring
  have hinner : (d.valueToX (d.x.getD i 0) - d.panelLeft) / d.panelWidth *
      ((d.x.length : ℚ)) = (i : ℚ) + ((n : ℚ) + 1) / (2 * (n : ℚ)) := by
    rw [harg, hlen, hW]
    push_cast
    have hn1 : (n : ℚ) + 1 ≠ 0 := by positivity
    field_simp
    ring
  have hfloor : ⌊(i : ℚ) + ((n : ℚ) + 1) / (2 * (n : ℚ))⌋ = (i : ℤ) := by
    have hd0 : (0 : ℚ) < 2 * (n : ℚ) := by positivity
    have hε0 : (0 : ℚ) ≤ ((n : ℚ) + 1) / (2 * (n : ℚ)) := by positivity
    have hε1 : ((n : ℚ) + 1) / (2 * (n : ℚ)) < 1 := by
      rw [div_lt_one hd0]
      have : (2 : ℚ) ≤ (n : ℚ) := by exact_mod_cast h2
      linarith
    rw [Int.floor_eq_iff]
    constructor
    · push_cast; linarith
    · push_cast; linarith
  unfold Distribution.xToValue
  rw [hinner, hfloor, hlen]
  have hcast : ((n + 1 : ℕ) : ℤ) - 1 = (n : ℤ) := by push_cast; ring
  rw [hcast, min_eq_left (by exact_mod_cast hi)]

/-- C7 counterexample: in the concrete geometry (default axis `0..100`,
canvas width 400, zero gutters and paddings, so `panel.left = 50`), feeding
`valueToX`'s output directly back into `xToValue` does not recover the grid
value: `valueToX` produces canvas-absolute pixels while `xToValue` expects
panel-relative pixels, so grid value `0` comes back as `17` — off by 17 grid
steps, far more than the claimed one grid step. -/
theorem valueToX_xToValue_not_inverse :
    dGeom.x.getD 0 0 = 0 ∧
    dGeom.xToValue (dGeom.valueToX (dGeom.x.getD 0 0)) = 17 ∧
    dGeom.x.getD (dGeom.xToValue (dGeom.valueToX (dGeom.x.getD 0 0))).toNat 0 = 17 ∧
    ¬(|dGeom.x.getD (dGeom.xToValue (dGeom.valueToX (dGeom.x.getD 0 0))).toNat 0 -
        dGeom.x.getD 0 0| ≤ 1) :=
  ⟨by decide, by decide, by decide, by decide⟩

/-- C7 as amended: (i) the value/pixel pair is a round trip only in the
panel-relative pixel space that `xToValue` actually consumes (the engine
subtracts `panel.left` from cursor coordinates before calling it): for a
canonical grid (default `xPoints = xMax - xMin`, integral range at least 2,
no style gutters or paddings, at least one pixel per point), mapping a grid
value through `valueToX`, shifting to panel coordinates, and mapping back
through `xToValue` recovers the exact grid index and hence the exact value;
(ii) `yToPrecision ∘ precisionToY` is exactly the identity whenever
`precisionScale` is nonzero — for all precisions, in particular on
`[precisionStart, maxPrecision + precisionPadding]`; (iii)
`yToPayout ∘ payoutToY` is exactly the identity whenever `payoutScale` is
nonzero and the payout caps are at their unbounded defaults — for all bets,
in particular on `[minBet, maxBet]`. -/
theorem coordinate_roundtrips :
    (∀ (d : Distribution) (n : ℕ),
        d.x = Distribution.makeX d.xMin d.xMax (d.xMax - d.xMin) false →
        d.xMax - d.xMin = (n : ℚ) → 2 ≤ n → d.gutterX = 0 → d.paddingX = 0 →
        1 ≤ ⌊d.canvasW / ((n : ℚ) + 1)⌋ →
        ∀ i : ℕ, i ≤ n →
          d.xToValue (d.valueToX (d.x.getD i 0) - d.panelLeft) = (i : ℤ) ∧
          d.x.getD (d.xToValue (d.valueToX (d.x.getD i 0) - d.panelLeft)).toNat 0 =
            d.x.getD i 0) ∧
    (∀ (d : Distribution) (p : ℚ), d.precisionScale ≠ 0 →
        d.yToPrecision (d.precisionToY p) = p) ∧
    (∀ (d : Distribution) (b : ℚ), d.payoutScale ≠ 0 →
        d.minPayout = none → d.maxPayout = none →
        d.yToPayout true (d.payoutToY b) = b) := by
  refine ⟨?_, ?_, ?_⟩
  · intro d n hx hn h2 hg hp hppx i hi
    have h1 := xToValue_valueToX_panel d n hx hn h2 hg hp hppx i hi
    refine ⟨h1, ?_⟩
    rw [h1, Int.toNat_natCast]
  · intro d p h
    simp only [Distribution.yToPrecision, Distribution.precisionToY]
    rw [mul_div_cancel_right₀ _ h]
    ring
  · intro d b h hmin hmax
    simp only [Distribution.yToPayout, Distribution.payoutToY, hmin, hmax, capPayout]
    rw [add_sub_cancel_left, mul_div_cancel_right₀ _ h]
    simp

/-- C7 amended-claim witness at the concrete geometry: grid value `0` round
trips through panel coordinates to index `0`; precision `1/2` and bet `1/2`
round trip exactly. -/
theorem coordinate_roundtrips_check :
    dGeom.xToValue (dGeom.valueToX (dGeom.x.getD 0 0) - dGeom.panelLeft) = 0 ∧
    dGeom.yToPrecision (dGeom.precisionToY (1/2)) = 1/2 ∧
    dGeom.yToPayout true (dGeom.payoutToY (1/2)) = 1/2 := by
  refine ⟨?_, ?_, ?_⟩
  · exact (coordinate_roundtrips.1 dGeom 100
      (by show Distribution.makeX 0 100 100 false = Distribution.makeX 0 100 (100 - 0) false
          norm_num)
      (by show (100 : ℚ) - 0 = ((100 : ℕ) : ℚ); norm_num)
      (by norm_num) rfl rfl
      (by show 1 ≤ ⌊(400 : ℚ) / (((100 : ℕ) : ℚ) + 1)⌋; norm_num)
      0 (by norm_num)).1
  · exact coordinate_roundtrips.2.1 dGeom (1/2) (by decide)
  · exact coordinate_roundtrips.2.2 dGeom (1/2) (by decide) rfl rfl
